import Mathlib

/-!
Verification of the ytsum video segmentation and transcript-alignment core.

This file shallowly embeds the algorithmic core of the repository
(`src/ytsum/utils.py`, `src/ytsum/alignment.py`, `src/ytsum/video.py`,
`src/ytsum/scene_detection/ssim.py`, `src/ytsum/scene_detection/adaptive.py`,
`src/ytsum/scene_detection/eval.py`) and proves or refutes the specification's
claims about it.

Embedding conventions:
* Python exceptions are modelled with `Option`/`Except`: a raised exception is
  `none`/`.error`, a normal return is `some`/`.ok`.
* Python floats that only carry exact arithmetic in the claims (timestamps,
  thresholds, metric ratios) are modelled as `ℚ`.
* Python `int(x)` on a float truncates toward zero; `pyInt` models that.
* Image frames and the external SSIM score are abstracted: an opaque type `F`
  of images, a `gray : F → F` colour conversion, and a `score : F → F → ℚ`
  similarity oracle.  The control flow around them is embedded faithfully.
-/

namespace Ytsum

/-- Numeric value of a list of decimal digit characters, most significant
first (the value `int(s)` computes for a plain digit string). -/
def digitsVal (cs : List Char) : ℕ :=
  cs.foldl (fun n c => 10 * n + (c.toNat - '0'.toNat)) 0

/-- Python `int(s)` restricted to the shapes this codebase feeds it:
a non-empty string of decimal digits.  Anything else is a `ValueError`,
modelled as `none`. -/
def pyIntParse (cs : List Char) : Option ℕ :=
  if cs ≠ [] ∧ cs.all (·.isDigit) then some (digitsVal cs) else none

/-- `str.split(sep)` for a one-character separator, on character lists. -/
def splitOnChar (sep : Char) : List Char → List (List Char)
  | [] => [[]]
  | c :: rest =>
    match splitOnChar sep rest with
    | [] => [[]]
    | g :: gs => if c = sep then [] :: g :: gs else (c :: g) :: gs

/-- Python `int(q)` for a float value `q`: truncation toward zero. -/
def pyInt (q : ℚ) : ℤ :=
  if 0 ≤ q then ⌊q⌋ else ⌈q⌉

/-- Zero-padding of a natural number to `w` digits, as in Python's
`f"{n:0wd}"` for non-negative `n`. -/
def padNum (w : ℕ) (n : ℕ) : String :=
  let s := toString n
  String.mk (List.replicate (w - s.length) '0') ++ s

/-! ## `ytsum/utils.py` -/

/-- `convert_timestamp_to_ms` (`src/ytsum/utils.py`, also duplicated in
`src/ytsum/alignment.py`): replace `.` and `_` by `:`, split on `:`, require
exactly four fields, parse each with `int`, and combine into milliseconds.
A wrong field count or a non-numeric field raises, modelled as `none`. -/
def convert_timestamp_to_ms (s : String) : Option ℕ :=
  match splitOnChar ':' (s.data.map (fun c => if c = '.' ∨ c = '_' then ':' else c)) with
  | [h, m, sec, ms] => do
    let hv ← pyIntParse h
    let mv ← pyIntParse m
    let sv ← pyIntParse sec
    let msv ← pyIntParse ms
    pure (hv * 3600000 + mv * 60000 + sv * 1000 + msv)
  | _ => none

/-! ## `ytsum/alignment.py` — transcript model and subtitle-frame aligner

The aligner is embedded from the point where the frame filenames have been
globbed, sorted and parsed into `(index, start_ms, end_ms)` windows and the
VTT cues have been parsed into phrases with millisecond start times
(`TranscribedPhrase.starts_at_ms`).  The file-system and regex plumbing
around those steps carries no claim. -/

/-- A parsed transcript phrase (`TranscribedPhrase` with its
`starts_at_ms` property already evaluated). -/
structure Phrase where
  text : String
  startsAtMs : ℕ
  deriving DecidableEq, Repr

/-- A frame window parsed from a `frame-<index>-<start>-<end>.jpg`
filename. -/
structure Window where
  index : ℕ
  startMs : ℕ
  endMs : ℕ
  deriving DecidableEq, Repr

/-- `Transcription.get_phrases_in_range`: phrases whose start time lies in
the half-open interval `[start_ms, end_ms)`, in transcript order. -/
def get_phrases_in_range (phrases : List Phrase) (startMs endMs : ℕ) : List Phrase :=
  phrases.filter fun p => decide (startMs ≤ p.startsAtMs) && decide (p.startsAtMs < endMs)

/-- Python `max(phrase.starts_at_ms for phrase in self.phrases)`:
`none` models the `ValueError` raised on an empty sequence. -/
def maxStarts : List Phrase → Option ℕ
  | [] => none
  | p :: ps =>
    match maxStarts ps with
    | none => some p.startsAtMs
    | some m => some (max p.startsAtMs m)

/-- `Transcription.get_end_time`: maximum phrase start time plus 1000 ms. -/
def get_end_time (phrases : List Phrase) : Option ℕ :=
  (maxStarts phrases).map (· + 1000)

/-- An output `Frame`.  The source stores only the joined `text`; the
intermediate phrase selection (`phrases` local in `SubtitleFrameAligner.run`)
is materialized alongside it so the claims can speak about it. -/
structure FrameE where
  index : ℕ
  startsAtMs : ℕ
  endsAtMs : ℕ
  phrases : List Phrase
  text : String
  deriving DecidableEq, Repr

/-- Python `str.strip()`: drop leading and trailing whitespace. -/
def pyStrip (s : String) : String :=
  String.mk (((s.data.dropWhile Char.isWhitespace).reverse.dropWhile Char.isWhitespace).reverse)

/-- `" ".join([phrase.text.strip() for phrase in phrases])`. -/
def joinPhraseText (ps : List Phrase) : String :=
  String.intercalate " " (ps.map fun p => pyStrip p.text)

/-- Build the `Frame` for one window of `SubtitleFrameAligner.run`'s
first pass. -/
def mkFrame (phrases : List Phrase) (w : Window) : FrameE :=
  let sel := get_phrases_in_range phrases w.startMs w.endMs
  ⟨w.index, w.startMs, w.endMs, sel, joinPhraseText sel⟩

/-- `SubtitleFrameAligner.run` from the parsed inputs to the frame list that
is serialized to JSON.  `output.frames[-1]` on an empty frame list raises an
`IndexError` and `get_end_time` on an empty transcript raises a
`ValueError`; both are modelled as `none` (nothing is written in either
case).  Otherwise the last frame's end is redefined to
`max(start times) + 1000` and its phrases and text are re-selected over the
widened interval. -/
def alignerRun (phrases : List Phrase) (windows : List Window) : Option (List FrameE) :=
  match (windows.map (mkFrame phrases)).getLast?, get_end_time phrases with
  | some last, some endTime =>
    some ((windows.map (mkFrame phrases)).dropLast ++
      [⟨last.index, last.startsAtMs, endTime,
        get_phrases_in_range phrases last.startsAtMs endTime,
        joinPhraseText (get_phrases_in_range phrases last.startsAtMs endTime)⟩])
  | _, _ => none

/-- The multiset-relevant payload of an aligner output: all assigned
phrases, window by window, in order. -/
def alignedPhrases (frames : List FrameE) : List Phrase :=
  (frames.map FrameE.phrases).flatten

/-! ## `ytsum/video.py` — `VideoImageExtractor` (frame difference extractor)

The decoded video is modelled as the list of frames `video.read()` yields,
each paired with the `CAP_PROP_POS_MSEC` value observed right after reading
it.  `_images_differ_using_structural_similarity_index` (grayscale
conversion + external SSIM + threshold comparison) is abstracted as a
boolean oracle `differ` on the stored (colour) frames, exactly as the run
loop uses it. -/

/-- One decoded video frame: the image and its position timestamp. -/
structure VFrame (F : Type) where
  img : F
  timeMs : ℚ

/-- A persisted image record: the `frame_number`, `start_time_ms` and
`end_time_ms` arguments of `_generate_filename` for one `_save_image`
call, in save order. -/
structure SavedImg where
  frameNumber : ℕ
  startMs : ℚ
  endMs : ℚ
  deriving DecidableEq, Repr

/-- Loop state of `VideoImageExtractor.run`. -/
structure ExState (F : Type) where
  prev : Option F
  prevTimeMs : ℚ
  frameCount : ℕ
  savedCount : ℕ
  saved : List SavedImg

/-- Initial state of `VideoImageExtractor.run`'s loop. -/
def exInit (F : Type) : ExState F :=
  ⟨none, 0, 0, 0, []⟩

/-- One iteration of `VideoImageExtractor.run`'s loop body.  `stride` is the
precomputed `frame_interval`; `frame_count % 0` raises `ZeroDivisionError`
(`none`).  A frame whose ordinal is a multiple of the stride is kept when no
frame has been kept yet or when `differ` holds against the last kept frame;
keeping updates `prev_frame`, `prev_frame_time_ms` and `saved_count`. -/
def extractorStep (stride : ℤ) (differ : F → F → Bool)
    (st : ExState F) (it : VFrame F) : Option (ExState F) :=
  if stride = 0 then none
  else if ((st.frameCount + 1 : ℕ) : ℤ) % stride = 0 then
    match st.prev with
    | none =>
      some ⟨some it.img, it.timeMs, st.frameCount + 1, st.savedCount + 1,
            st.saved ++ [⟨st.savedCount, st.prevTimeMs, it.timeMs⟩]⟩
    | some p =>
      if differ p it.img then
        some ⟨some it.img, it.timeMs, st.frameCount + 1, st.savedCount + 1,
              st.saved ++ [⟨st.savedCount, st.prevTimeMs, it.timeMs⟩]⟩
      else some { st with frameCount := st.frameCount + 1 }
  else some { st with frameCount := st.frameCount + 1 }

/-- `frame_interval: int = int(fps * self._sample_interval_secs)`
(`src/ytsum/video.py` line 63). -/
def extractorFrameInterval (fps sampleIntervalSecs : ℚ) : ℤ :=
  pyInt (fps * sampleIntervalSecs)

/-- `VideoImageExtractor.run`, from an opened video to the sequence of
persisted images.  `none` models an uncaught exception (the
`ZeroDivisionError` when the computed stride is zero and at least one frame
is decoded). -/
def extractorRun (fps sampleIntervalSecs : ℚ) (differ : F → F → Bool)
    (items : List (VFrame F)) : Option (List SavedImg) :=
  let stride := extractorFrameInterval fps sampleIntervalSecs
  (items.foldlM (extractorStep stride differ) (exInit F)).map ExState.saved

/-! ## `ytsum/scene_detection/common.py` — result model -/

/-- `SceneInfo`: one detected scene.  `start_time`/`end_time` are the
formatted timecode strings the detectors store. -/
structure SceneInfoE where
  index : ℕ
  startTime : String
  endTime : String
  startFrame : ℤ
  endFrame : ℤ
  deriving DecidableEq, Repr

/-- `SceneDetectionResult` restricted to the deterministic fields.  The two
wall-clock `processing_time_*` fields and the `video_file_path` echo are
dropped: they carry no algorithmic content for the claims.
`min_scene_length_frames` is kept as `ℚ` because the adaptive detector
assigns it the unrounded product `min_scene_length_secs * frame_rate`. -/
structure SceneDetectionResultE where
  sceneCount : ℕ
  frameRateSecs : ℚ
  minSceneLengthSecs : ℤ
  minSceneLengthFrames : ℚ
  adaptiveThreshold : ℚ
  minContentVal : ℚ
  scenes : List SceneInfoE
  deriving DecidableEq, Repr

/-! ## `ytsum/scene_detection/ssim.py` — structural-similarity detector -/

/-- `StructuralSimilaritySceneDetector._format_time`: milliseconds to a
zero-padded `HH:MM:SS.mmm` string (`time_ms` is a non-negative float;
`int(x)` and float `%` are modelled for that case). -/
def formatTimeDot (timeMs : ℚ) : String :=
  let totalSeconds := (pyInt (timeMs / 1000)).toNat
  let milliseconds := (pyInt (timeMs - 1000 * ⌊timeMs / 1000⌋)).toNat
  let hours := totalSeconds / 3600
  let rem := totalSeconds % 3600
  let minutes := rem / 60
  let seconds := rem % 60
  padNum 2 hours ++ ":" ++ padNum 2 minutes ++ ":" ++ padNum 2 seconds
    ++ "." ++ padNum 3 milliseconds

/-- Loop state of `_detect_scenes_using_ssim`. -/
structure SsimState (F : Type) where
  scenes : List SceneInfoE
  prev : Option F
  frameCount : ℤ
  sceneStartFrame : ℤ
  sceneStartTime : ℚ

/-- Initial state of `_detect_scenes_using_ssim`. -/
def ssimInit (F : Type) : SsimState F :=
  ⟨[], none, 0, 0, 0⟩

/-- One iteration of `_detect_scenes_using_ssim`'s loop body.  On every
sampled frame (`frame_count % frame_interval == 0`) the grayscale image
becomes the new comparison frame; a boundary is only declared once at least
`min_scene_length_frames` frames have passed since the current scene began
and the SSIM score against the previous sample falls below the threshold.
`frame_count % 0` raises `ZeroDivisionError` (`none`). -/
def ssimStep (frameInterval mslFrames : ℤ) (threshold : ℚ)
    (gray : F → F) (score : F → F → ℚ)
    (st : SsimState F) (it : VFrame F) : Option (SsimState F) :=
  if frameInterval = 0 then none
  else if (st.frameCount + 1) % frameInterval = 0 then
    match st.prev with
    | none => some { st with frameCount := st.frameCount + 1, prev := some (gray it.img) }
    | some p =>
      if st.frameCount + 1 - st.sceneStartFrame < mslFrames then
        some { st with frameCount := st.frameCount + 1, prev := some (gray it.img) }
      else if score p (gray it.img) < threshold then
        some ⟨st.scenes ++ [⟨st.scenes.length, formatTimeDot st.sceneStartTime,
                formatTimeDot it.timeMs, st.sceneStartFrame, st.frameCount + 1⟩],
              some (gray it.img), st.frameCount + 1, st.frameCount + 1, it.timeMs⟩
      else some { st with frameCount := st.frameCount + 1, prev := some (gray it.img) }
  else some { st with frameCount := st.frameCount + 1 }

/-- `_detect_scenes_using_ssim`: fold the loop body over the decoded frames
and return the accumulated scenes. -/
def ssimDetectScenes (fps sampleIntervalSecs : ℚ) (minSceneLengthSecs : ℤ)
    (threshold : ℚ) (gray : F → F) (score : F → F → ℚ)
    (items : List (VFrame F)) : Option (List SceneInfoE) :=
  (items.foldlM (ssimStep (pyInt (fps * sampleIntervalSecs))
    (pyInt (fps * (minSceneLengthSecs : ℚ))) threshold gray score)
    (ssimInit F)).map SsimState.scenes

/-- `StructuralSimilaritySceneDetector.run`: detect scenes, then build the
result record.  Note the literal field values from the source:
`min_scene_length_frames=0`, `adaptive_threshold=self._threshold`,
`min_content_val=0`. -/
def ssimRun (threshold : ℚ) (minSceneLengthSecs : ℤ) (sampleIntervalSecs : ℚ)
    (fps : ℚ) (gray : F → F) (score : F → F → ℚ)
    (items : List (VFrame F)) : Option SceneDetectionResultE :=
  (ssimDetectScenes fps sampleIntervalSecs minSceneLengthSecs threshold gray score items).map
    fun scenes =>
      { sceneCount := scenes.length
        frameRateSecs := fps
        minSceneLengthSecs := minSceneLengthSecs
        minSceneLengthFrames := 0
        adaptiveThreshold := threshold
        minContentVal := 0
        scenes := scenes }

/-! ## `ytsum/scene_detection/adaptive.py` — adaptive detector -/

/-- One scene pair as returned by the external `scenedetect.detect` call:
the `get_timecode()` strings and `get_frames()` ordinals of the scene's
start and end `FrameTimecode`s.  The content-value detection algorithm
itself lives in the third-party `scenedetect` library, outside this
repository; its output is taken as an input here. -/
structure AdScene where
  startTime : String
  endTime : String
  startFrame : ℤ
  endFrame : ℤ
  deriving DecidableEq, Repr

/-- Modelled from the spec: the external adaptive content-value detection
(`scenedetect.detect` with an `AdaptiveDetector`) is not part of this
repository.  Per the spec, the minimum-length constraint `min_scene_len =
min_scene_length_secs * frame_rate` is passed into that call "so enforcement
is atomic with detection": consecutive scene starts are at least
`min_scene_len` frames apart.  This predicate states that documented
guarantee on a returned scene list. -/
def adaptiveLibraryMinLenGuarantee (minSceneLen : ℚ) (sceneList : List AdScene) : Prop :=
  List.Chain' (fun a b => (a.startFrame : ℚ) + minSceneLen ≤ (b.startFrame : ℚ)) sceneList

/-- `AdaptiveSceneDetector.run`, from the external library's scene list to
the result record: scenes are numbered from 0 in detection order and the
configuration is echoed (`min_scene_length_frames` is the unrounded product
`min_scene_length_secs * frame_rate`). -/
def adaptiveRun (adaptiveThreshold : ℚ) (minSceneLengthSecs : ℤ) (minContentValue : ℚ)
    (fps : ℚ) (sceneList : List AdScene) : SceneDetectionResultE :=
  { sceneCount := sceneList.length
    frameRateSecs := fps
    minSceneLengthSecs := minSceneLengthSecs
    minSceneLengthFrames := (minSceneLengthSecs : ℚ) * fps
    adaptiveThreshold := adaptiveThreshold
    minContentVal := minContentValue
    scenes := sceneList.enum.map fun x =>
      ⟨x.1, x.2.startTime, x.2.endTime, x.2.startFrame, x.2.endFrame⟩ }

/-! ## `ytsum/scene_detection/eval.py` — scene detection evaluator -/

/-- An `AnnotatedSceneInfo`. -/
structure AnnScene where
  startTime : String
  endTime : String
  deriving DecidableEq, Repr

/-- `VideoSceneAnnotation` (the `frame_rate_secs` field is unused by the
evaluator and omitted). -/
structure AnnotationE where
  videoFilePath : String
  scenes : List AnnScene
  deriving DecidableEq, Repr

/-- The slice of `SceneDetectionResult` the evaluator reads: the video path
and the detected scenes' time strings. -/
structure DetResultE where
  videoFilePath : String
  scenes : List AnnScene
  deriving DecidableEq, Repr

/-- `SceneDetectorEvaluationResult` restricted to the metric fields (the
echoed configuration fields are copied verbatim from the inputs). -/
structure EvalMetrics where
  accuracy : ℚ
  precision : ℚ
  recallMetric : ℚ
  f1Score : ℚ
  deriving DecidableEq, Repr

/-- One `H`, `M` or `S` field of `datetime.strptime`'s `%H:%M:%S.%f`
pattern: one or two decimal digits whose value is at most `maxVal`
(the strptime regex admits `0-23` hours and `0-59` minutes; seconds up to
61 pass the regex but `datetime` then rejects 60 and 61 with the same
`ValueError`, so the observable bound is 59). -/
def strpField (maxVal : ℕ) (cs : List Char) : Option ℕ := do
  if cs.all (·.isDigit) ∧ (cs.length = 1 ∨ cs.length = 2) then
    let v := digitsVal cs
    if v ≤ maxVal then some v else none
  else none

/-- `parse_time` (`datetime.strptime(time_str, "%H:%M:%S.%f")`), returning
the time of day in seconds as an exact rational.  `%f` accepts one to six
fractional digits, zero-padded on the right to microseconds.  Any parse
failure raises `ValueError`, modelled as `none`. -/
def parse_time (s : String) : Option ℚ :=
  match splitOnChar '.' s.data with
  | [hms, frac] =>
    match splitOnChar ':' hms with
    | [h, m, sec] => do
      let hv ← strpField 23 h
      let mv ← strpField 59 m
      let sv ← strpField 59 sec
      if frac ≠ [] ∧ frac.length ≤ 6 ∧ frac.all (·.isDigit) then
        let micros := digitsVal frac * 10 ^ (6 - frac.length)
        pure ((hv * 3600 + mv * 60 + sv : ℚ) + (micros : ℚ) / 1000000)
      else none
    | _ => none
  | _ => none

/-- The `ValueError` message `parse_time` raises for a malformed string. -/
def invalidTimeMsg (s : String) : String :=
  "Invalid time format: " ++ s ++ ". Expected format: HH:MM:SS.mmm"

/-- The `ValueError` message for mismatched video paths. -/
def pathMismatchMsg : String :=
  "Video file paths in annotation and result do not match."

/-- `pathlib.PurePosixPath` normalization, as far as `Path(a) != Path(b)`
compares: the root (`""`, `"/"`, or the POSIX-special `"//"`) plus the
non-empty, non-`"."` components. -/
def normPath (s : String) : String × List String :=
  let leading := (s.data.takeWhile (· = '/')).length
  let root := if leading = 0 then "" else if leading = 2 then "//" else "/"
  (root, (splitOnChar '/' s.data).filterMap fun c =>
    if c = [] ∨ c = ['.'] then none else some (String.mk c))

/-- `time_difference_seconds`: absolute difference of two parsed times, in
seconds; a parse failure propagates the `ValueError` naming the offending
string. -/
def time_difference_seconds (t1 t2 : String) : Except String ℚ := do
  let v1 ← match parse_time t1 with
    | some v => Except.ok v
    | none => Except.error (invalidTimeMsg t1)
  let v2 ← match parse_time t2 with
    | some v => Except.ok v
    | none => Except.error (invalidTimeMsg t2)
  pure |v2 - v1|

/-- `SceneDetectionEvaluator._is_scene_match`: both boundary differences
within tolerance.  The start difference is computed (and can raise) before
the end difference. -/
def is_scene_match (tol : ℚ) (a : AnnScene) (d : AnnScene) : Except String Bool := do
  let startDiff ← time_difference_seconds a.startTime d.startTime
  let endDiff ← time_difference_seconds a.endTime d.endTime
  pure (decide (startDiff ≤ tol) && decide (endDiff ≤ tol))

/-- The inner loop of `SceneDetectionEvaluator.run`: scan detected scenes in
order, stop at the first match (`break`); `true` iff the annotated scene
claimed a match. -/
def firstMatch (tol : ℚ) (a : AnnScene) : List AnnScene → Except String Bool
  | [] => Except.ok false
  | d :: ds => do
    let b ← is_scene_match tol a d
    if b then Except.ok true else firstMatch tol a ds

/-- The outer loop of `SceneDetectionEvaluator.run`: `correct_count` after
scanning every annotated scene. -/
def correctCount (tol : ℚ) (detected : List AnnScene) : List AnnScene → Except String ℕ
  | [] => Except.ok 0
  | a :: as => do
    let b ← firstMatch tol a detected
    let rest ← correctCount tol detected as
    pure ((if b then 1 else 0) + rest)

/-- `SceneDetectionEvaluator.run`: validate the video paths, count greedy
matches, and compute the four metrics with their zero-denominator guards.
`Except.error` models the raised `ValueError`s. -/
def evaluatorRun (tol : ℚ) (ann : AnnotationE) (result : DetResultE) :
    Except String EvalMetrics :=
  if normPath ann.videoFilePath ≠ normPath result.videoFilePath then
    Except.error pathMismatchMsg
  else do
    let cc ← correctCount tol result.scenes ann.scenes
    let totalScenes := ann.scenes.length
    let accuracy : ℚ := if totalScenes > 0 then (cc : ℚ) / totalScenes * 100 else 0
    let precision : ℚ :=
      if result.scenes.length > 0 then (cc : ℚ) / result.scenes.length else 0
    let recallMetric : ℚ := if totalScenes > 0 then (cc : ℚ) / totalScenes else 0
    let f1Score : ℚ :=
      if precision + recallMetric > 0 then 2 * (precision * recallMetric) / (precision + recallMetric) else 0
    pure ⟨accuracy, precision, recallMetric, f1Score⟩

/-! ## Helper lemmas -/

theorem splitOnChar_ne_nil (sep : Char) (l : List Char) : splitOnChar sep l ≠ [] := by
  induction l with
  | nil => simp [splitOnChar]
  | cons c rest ih =>
    unfold splitOnChar
    cases h : splitOnChar sep rest with
    | nil => simp
    | cons g gs => by_cases hc : c = sep <;> simp [hc]

theorem splitOnChar_eq_single {sep : Char} {l : List Char} (h : ∀ c ∈ l, c ≠ sep) :
    splitOnChar sep l = [l] := by
  induction l with
  | nil => rfl
  | cons c rest ih =>
    have hrest : splitOnChar sep rest = [rest] := ih fun x hx => h x (List.mem_cons_of_mem _ hx)
    unfold splitOnChar
    rw [hrest]
    simp [h c (List.mem_cons_self c rest)]

theorem splitOnChar_append {sep : Char} (A B : List Char) (h : ∀ c ∈ A, c ≠ sep) :
    splitOnChar sep (A ++ sep :: B) = A :: splitOnChar sep B := by
  induction A with
  | nil =>
    show splitOnChar sep (sep :: B) = [] :: splitOnChar sep B
    cases hB : splitOnChar sep B with
    | nil => exact absurd hB (splitOnChar_ne_nil sep B)
    | cons g gs => simp [splitOnChar, hB]
  | cons a A ih =>
    have ha : a ≠ sep := h a (List.mem_cons_self a A)
    have ih' := ih fun x hx => h x (List.mem_cons_of_mem _ hx)
    show splitOnChar sep (a :: (A ++ sep :: B)) = (a :: A) :: splitOnChar sep B
    simp [splitOnChar, ih', ha]

theorem digit_not_sep {c : Char} (h : c.isDigit) :
    c ≠ ':' ∧ c ≠ '.' ∧ c ≠ '_' := by
  refine ⟨?_, ?_, ?_⟩ <;> rintro rfl <;> exact absurd h (by decide)

/-- A non-empty digit string parses with `int` to its decimal value. -/
theorem pyIntParse_digits {cs : List Char} (hne : cs ≠ []) (hd : cs.all Char.isDigit) :
    pyIntParse cs = some (digitsVal cs) := by
  unfold pyIntParse
  rw [if_pos ⟨hne, hd⟩]

/-- Mapping separators to `:` leaves a digit string unchanged. -/
theorem map_sepToColon_digits {X : List Char} (h : X.all Char.isDigit) :
    X.map (fun c => if c = '.' ∨ c = '_' then ':' else c) = X := by
  induction X with
  | nil => rfl
  | cons c X ih =>
    rw [List.all_cons, Bool.and_eq_true] at h
    have hc := digit_not_sep h.1
    simp [hc.2.1, hc.2.2, ih h.2]

theorem all_digits_ne_colon {X : List Char} (h : X.all Char.isDigit) :
    ∀ c ∈ X, c ≠ ':' := by
  intro c hc
  exact (digit_not_sep ((List.all_eq_true.mp h) c hc)).1

/-! ## Claim theorems -/

/-- C7: `convert_timestamp_to_ms` maps `"01:02:03.456"`, `"01:02:03:456"` and
`"01_02_03_456"` to `3723456`; and in general, four integer fields written as
non-empty digit strings, joined by any mix of the separators `:`, `.`, `_`
(covering the `HH:MM:SS.mmm`, `HH:MM:SS:mmm` and `HH_MM_SS_mmm` formats),
normalize by replacing separators with `:` and convert to
`h·3600000 + m·60000 + s·1000 + ms` milliseconds. -/
theorem C7_timestamp_conversion :
    (convert_timestamp_to_ms "01:02:03.456" = some 3723456 ∧
     convert_timestamp_to_ms "01:02:03:456" = some 3723456 ∧
     convert_timestamp_to_ms "01_02_03_456" = some 3723456) ∧
    ∀ (H M S MS : List Char) (s1 s2 s3 : Char),
      H ≠ [] → H.all Char.isDigit → M ≠ [] → M.all Char.isDigit →
      S ≠ [] → S.all Char.isDigit → MS ≠ [] → MS.all Char.isDigit →
      (s1 = ':' ∨ s1 = '.' ∨ s1 = '_') →
      (s2 = ':' ∨ s2 = '.' ∨ s2 = '_') →
      (s3 = ':' ∨ s3 = '.' ∨ s3 = '_') →
      convert_timestamp_to_ms (String.mk (H ++ s1 :: (M ++ s2 :: (S ++ s3 :: MS)))) =
        some (digitsVal H * 3600000 + digitsVal M * 60000 + digitsVal S * 1000 + digitsVal MS) := by
  constructor
  · exact ⟨by decide, by decide, by decide⟩
  · intro H M S MS s1 s2 s3 hHne hH hMne hM hSne hS hMSne hMS hs1 hs2 hs3
    have hsep : ∀ c : Char, (c = ':' ∨ c = '.' ∨ c = '_') →
        (if c = '.' ∨ c = '_' then ':' else c) = ':' := by
      rintro c (rfl | rfl | rfl) <;> decide
    unfold convert_timestamp_to_ms
    have hmap : (String.mk (H ++ s1 :: (M ++ s2 :: (S ++ s3 :: MS)))).data.map
        (fun c => if c = '.' ∨ c = '_' then ':' else c) =
        H ++ ':' :: (M ++ ':' :: (S ++ ':' :: MS)) := by
      show (H ++ s1 :: (M ++ s2 :: (S ++ s3 :: MS))).map _ = _
      simp only [List.map_append, List.map_cons]
      rw [map_sepToColon_digits hH, map_sepToColon_digits hM, map_sepToColon_digits hS,
        map_sepToColon_digits hMS, hsep s1 hs1, hsep s2 hs2, hsep s3 hs3]
    rw [hmap, splitOnChar_append H _ (all_digits_ne_colon hH),
      splitOnChar_append M _ (all_digits_ne_colon hM),
      splitOnChar_append S _ (all_digits_ne_colon hS),
      splitOnChar_eq_single (all_digits_ne_colon hMS)]
    simp [pyIntParse_digits hHne hH, pyIntParse_digits hMne hM,
      pyIntParse_digits hSne hS, pyIntParse_digits hMSne hMS]

/-- Witness for C7: the general statement applied to the concrete fields of
`"01:02:03.456"`. -/
theorem C7_timestamp_conversion_witness :
    convert_timestamp_to_ms
        (String.mk (['0','1'] ++ ':' :: (['0','2'] ++ ':' :: (['0','3'] ++ '.' :: ['4','5','6'])))) =
      some (digitsVal ['0','1'] * 3600000 + digitsVal ['0','2'] * 60000 +
        digitsVal ['0','3'] * 1000 + digitsVal ['4','5','6']) :=
  C7_timestamp_conversion.2 ['0','1'] ['0','2'] ['0','3'] ['4','5','6'] ':' ':' '.'
    (by decide) (by decide) (by decide) (by decide) (by decide) (by decide)
    (by decide) (by decide) (by decide) (by decide) (by decide)

theorem maxStarts_ne_none (p : Phrase) (ps : List Phrase) : maxStarts (p :: ps) ≠ none := by
  cases h : maxStarts ps <;> simp [maxStarts, h]

theorem maxStarts_eq_none_iff (ps : List Phrase) : maxStarts ps = none ↔ ps = [] := by
  cases ps with
  | nil => simp [maxStarts]
  | cons p ps => simp [maxStarts_ne_none p ps]

theorem get_end_time_isSome_iff (ps : List Phrase) : (get_end_time ps).isSome ↔ ps ≠ [] := by
  cases ps with
  | nil => simp [get_end_time, maxStarts]
  | cons p ps =>
    cases h : maxStarts (p :: ps) with
    | none => exact absurd h (maxStarts_ne_none p ps)
    | some m => simp [get_end_time, h]

/-- Every phrase's start time is bounded by the transcript maximum. -/
theorem maxStarts_le {ps : List Phrase} {m : ℕ} (h : maxStarts ps = some m) :
    ∀ p ∈ ps, p.startsAtMs ≤ m := by
  induction ps generalizing m with
  | nil => simp
  | cons q ps ih =>
    intro p hp
    rcases List.mem_cons.mp hp with rfl | hp'
    · cases hq : maxStarts ps <;> simp [maxStarts, hq] at h <;> omega
    · cases hq : maxStarts ps with
      | none =>
        rcases (maxStarts_eq_none_iff ps).mp hq with rfl
        simp at hp'
      | some m' =>
        have := ih hq p hp'
        simp [maxStarts, hq] at h
        omega

/-- C9: the aligner produces an output exactly when there is at least one
frame window and at least one transcript phrase; with no matching frame file
(`output.frames[-1]` raises `IndexError`) or an empty transcript
(`max()` raises `ValueError`) it fails before writing anything. -/
theorem C9_aligner_needs_frame_and_phrase (ps : List Phrase) (ws : List Window) :
    (alignerRun ps ws).isSome ↔ (ws ≠ [] ∧ ps ≠ []) := by
  unfold alignerRun
  cases hl : (ws.map (mkFrame ps)).getLast? with
  | none =>
    have hw : ws = [] := by
      have := List.getLast?_eq_none_iff.mp hl
      exact List.map_eq_nil_iff.mp this
    subst hw
    simp
  | some last =>
    have hw : ws ≠ [] := by
      intro h
      subst h
      simp at hl
    cases he : get_end_time ps with
    | none =>
      have hp : ps = [] := by
        by_contra hne
        have := (get_end_time_isSome_iff ps).mpr hne
        rw [he] at this
        simp at this
      subst hp
      simp
    | some endTime =>
      have hp : ps ≠ [] := (get_end_time_isSome_iff ps).mp (by rw [he]; rfl)
      rw [List.getLast?_map] at hl
      simp [hl, hw, hp]

/-- Splitting one half-open interval at an interior point splits the phrase
selection, up to permutation. -/
theorem sel_split (ps : List Phrase) (a b c : ℕ) (hab : a ≤ b) (hbc : b ≤ c) :
    (get_phrases_in_range ps a b ++ get_phrases_in_range ps b c).Perm
      (get_phrases_in_range ps a c) := by
  induction ps with
  | nil => simp [get_phrases_in_range]
  | cons p ps ih =>
    unfold get_phrases_in_range at ih ⊢
    rw [List.filter_cons, List.filter_cons, List.filter_cons]
    by_cases h1 : a ≤ p.startsAtMs
    · by_cases h2 : p.startsAtMs < b
      · have c1 : (decide (a ≤ p.startsAtMs) && decide (p.startsAtMs < b)) = true := by
          simp [h1, h2]
        have c2 : (decide (b ≤ p.startsAtMs) && decide (p.startsAtMs < c)) = false := by
          simp
          omega
        have c3 : (decide (a ≤ p.startsAtMs) && decide (p.startsAtMs < c)) = true := by
          simp
          omega
        rw [if_pos c1, if_pos c3, if_neg (by simp [c2])]
        exact ih.cons p
      · by_cases h4 : p.startsAtMs < c
        · have c1 : (decide (a ≤ p.startsAtMs) && decide (p.startsAtMs < b)) = false := by
            simp [h2]
          have c2 : (decide (b ≤ p.startsAtMs) && decide (p.startsAtMs < c)) = true := by
            simp
            omega
          have c3 : (decide (a ≤ p.startsAtMs) && decide (p.startsAtMs < c)) = true := by
            simp [h1, h4]
          rw [if_pos c2, if_pos c3, if_neg (by simp [c1])]
          exact List.perm_middle.trans (ih.cons p)
        · have c1 : (decide (a ≤ p.startsAtMs) && decide (p.startsAtMs < b)) = false := by
            simp [h2]
          have c2 : (decide (b ≤ p.startsAtMs) && decide (p.startsAtMs < c)) = false := by
            simp [h4]
          have c3 : (decide (a ≤ p.startsAtMs) && decide (p.startsAtMs < c)) = false := by
            simp [h4]
          rw [if_neg (by simp [c1]), if_neg (by simp [c2]), if_neg (by simp [c3])]
          exact ih
    · have c1 : (decide (a ≤ p.startsAtMs) && decide (p.startsAtMs < b)) = false := by
        simp [h1]
      have c2 : (decide (b ≤ p.startsAtMs) && decide (p.startsAtMs < c)) = false := by
        simp
        omega
      have c3 : (decide (a ≤ p.startsAtMs) && decide (p.startsAtMs < c)) = false := by
        simp [h1]
      rw [if_neg (by simp [c1]), if_neg (by simp [c2]), if_neg (by simp [c3])]
      exact ih

/-- If every phrase lies in `[a, E)` then the two-interval selection
`[a, b) ∪ [b, E)` is a permutation of the whole transcript. -/
theorem sel_append_perm (ps : List Phrase) (a b E : ℕ)
    (h : ∀ p ∈ ps, a ≤ p.startsAtMs ∧ p.startsAtMs < E) :
    (get_phrases_in_range ps a b ++ get_phrases_in_range ps b E).Perm ps := by
  induction ps with
  | nil => simp [get_phrases_in_range]
  | cons p ps ih =>
    obtain ⟨ha, hE⟩ := h p (List.mem_cons_self p ps)
    have ih' := ih fun q hq => h q (List.mem_cons_of_mem _ hq)
    unfold get_phrases_in_range at ih' ⊢
    rw [List.filter_cons, List.filter_cons]
    by_cases hb : p.startsAtMs < b
    · have c1 : (decide (a ≤ p.startsAtMs) && decide (p.startsAtMs < b)) = true := by
        simp [ha, hb]
      have c2 : (decide (b ≤ p.startsAtMs) && decide (p.startsAtMs < E)) = false := by
        simp
        omega
      rw [if_pos c1, if_neg (by simp [c2])]
      exact ih'.cons p
    · have c1 : (decide (a ≤ p.startsAtMs) && decide (p.startsAtMs < b)) = false := by
        simp [hb]
      have c2 : (decide (b ≤ p.startsAtMs) && decide (p.startsAtMs < E)) = true := by
        simp [hE]
        omega
      rw [if_neg (by simp [c1]), if_pos c2]
      exact List.perm_middle.trans (ih'.cons p)

/-- In a contiguous, monotone window chain the first start bounds the last
end. -/
theorem window_chain_le (w : Window) (ws : List Window)
    (hchain : List.Chain' (fun a b => b.startMs = a.endMs) (w :: ws))
    (hmono : ∀ x ∈ w :: ws, x.startMs ≤ x.endMs) :
    w.startMs ≤ ((w :: ws).getLast (by simp)).endMs := by
  induction ws generalizing w with
  | nil => exact hmono w (List.mem_cons_self w [])
  | cons w2 ws ih =>
    rw [List.chain'_cons] at hchain
    have h1 : w.startMs ≤ w.endMs := hmono w (List.mem_cons_self _ _)
    have h2 := ih w2 hchain.2 fun x hx => hmono x (List.mem_cons_of_mem _ hx)
    have hlink : w2.startMs = w.endMs := hchain.1
    rw [List.getLast_cons (List.cons_ne_nil w2 ws)]
    omega

/-- Joining the selections of a contiguous, monotone window chain is, up to
permutation, the selection over the chain's full span. -/
theorem join_sel_perm (ps : List Phrase) (w : Window) (ws : List Window)
    (hchain : List.Chain' (fun a b => b.startMs = a.endMs) (w :: ws))
    (hmono : ∀ x ∈ w :: ws, x.startMs ≤ x.endMs) :
    (((w :: ws).map fun x => get_phrases_in_range ps x.startMs x.endMs).flatten).Perm
      (get_phrases_in_range ps w.startMs (((w :: ws).getLast (by simp)).endMs)) := by
  induction ws generalizing w with
  | nil =>
    simp only [List.map_cons, List.map_nil, List.flatten_cons, List.flatten_nil,
      List.append_nil, List.getLast_singleton]
    exact List.Perm.refl _
  | cons w2 ws ih =>
    rw [List.chain'_cons] at hchain
    have hlink : w2.startMs = w.endMs := hchain.1
    have hmono' : ∀ x ∈ w2 :: ws, x.startMs ≤ x.endMs :=
      fun x hx => hmono x (List.mem_cons_of_mem _ hx)
    have ihh := ih w2 hchain.2 hmono'
    have hbound : w.endMs ≤ ((w2 :: ws).getLast (by simp)).endMs := by
      have := window_chain_le w2 ws hchain.2 hmono'
      omega
    rw [List.getLast_cons (List.cons_ne_nil w2 ws)]
    have hflat : ((List.map (fun x => get_phrases_in_range ps x.startMs x.endMs)
        (w :: w2 :: ws)).flatten) =
        get_phrases_in_range ps w.startMs w.endMs ++
          ((List.map (fun x => get_phrases_in_range ps x.startMs x.endMs)
            (w2 :: ws)).flatten) := by
      simp
    rw [hflat]
    refine (List.Perm.append_left _ ihh).trans ?_
    rw [hlink]
    exact sel_split ps w.startMs w.endMs _ (hmono w (List.mem_cons_self _ _)) hbound

/-- C1 (amended): for a non-empty transcript and a non-empty, ordered,
contiguous, non-overlapping window sequence **whose first window starts no
later than every phrase**, the aligner assigns each window the phrases in
its half-open interval, redefines the last window's end to
`max(start times) + 1000` (re-selecting its phrases), and the concatenation
of all assigned phrases is a permutation of the transcript — nothing
duplicated, nothing dropped.  (Without the first-window hypothesis phrases
that start before the first window are dropped; see the counterexample.) -/
theorem C1_aligner_phrase_partition (ps : List Phrase) (ws : List Window) (fs : List FrameE)
    (hchain : List.Chain' (fun a b => b.startMs = a.endMs) ws)
    (hmono : ∀ w ∈ ws, w.startMs ≤ w.endMs)
    (hcov : ∀ w0, ws.head? = some w0 → ∀ p ∈ ps, w0.startMs ≤ p.startsAtMs)
    (hrun : alignerRun ps ws = some fs) :
    (alignedPhrases fs).Perm ps ∧
      ∀ l, fs.getLast? = some l → get_end_time ps = some l.endsAtMs := by
  rcases ws.eq_nil_or_concat with rfl | ⟨B, lw, rfl⟩
  · simp [alignerRun] at hrun
  rw [List.concat_eq_append] at hchain hmono hcov hrun
  cases hET : get_end_time ps with
  | none =>
    unfold alignerRun at hrun
    rw [List.map_append, List.map_cons, List.map_nil, List.getLast?_concat, hET] at hrun
    simp at hrun
  | some endT =>
    unfold alignerRun at hrun
    rw [List.map_append, List.map_cons, List.map_nil, List.getLast?_concat, hET,
      List.dropLast_concat] at hrun
    obtain rfl : (B.map (mkFrame ps)) ++
        [⟨(mkFrame ps lw).index, (mkFrame ps lw).startsAtMs, endT,
          get_phrases_in_range ps (mkFrame ps lw).startsAtMs endT,
          joinPhraseText (get_phrases_in_range ps (mkFrame ps lw).startsAtMs endT)⟩] = fs :=
      Option.some.inj hrun
    obtain ⟨M, hM, rfl⟩ : ∃ M, maxStarts ps = some M ∧ endT = M + 1000 := by
      unfold get_end_time at hET
      cases hm : maxStarts ps with
      | none => rw [hm] at hET; simp at hET
      | some m => rw [hm] at hET; exact ⟨m, rfl, (Option.some.inj hET).symm⟩
    have hlt : ∀ p ∈ ps, p.startsAtMs < M + 1000 := by
      intro p hp
      have := maxStarts_le hM p hp
      omega
    constructor
    · rw [show (mkFrame ps lw).index = lw.index from rfl,
        show (mkFrame ps lw).startsAtMs = lw.startMs from rfl]
      have haligned : alignedPhrases ((B.map (mkFrame ps)) ++
          [⟨lw.index, lw.startMs, M + 1000, get_phrases_in_range ps lw.startMs (M + 1000),
            joinPhraseText (get_phrases_in_range ps lw.startMs (M + 1000))⟩]) =
          ((B.map fun w => get_phrases_in_range ps w.startMs w.endMs).flatten) ++
            get_phrases_in_range ps lw.startMs (M + 1000) := by
        unfold alignedPhrases
        rw [List.map_append, List.map_map, List.flatten_append]
        have hcomp : (FrameE.phrases ∘ mkFrame ps) =
            fun w => get_phrases_in_range ps w.startMs w.endMs := by
          funext w
          rfl
        rw [hcomp]
        simp
      rw [haligned]
      cases B with
      | nil =>
        have hsel : get_phrases_in_range ps lw.startMs (M + 1000) = ps := by
          apply List.filter_eq_self.mpr
          intro p hp
          have h1 : lw.startMs ≤ p.startsAtMs := hcov lw rfl p hp
          have h2 : p.startsAtMs < M + 1000 := hlt p hp
          simp [h1, h2]
        simp [hsel]
      | cons w0 B' =>
        have hh := List.chain'_append.mp hchain
        have hlink : lw.startMs = ((w0 :: B').getLast (by simp)).endMs :=
          hh.2.2 _ (Option.mem_def.mpr (List.getLast?_eq_getLast _ (by simp))) lw rfl
        have hmono0 : ∀ x ∈ w0 :: B', x.startMs ≤ x.endMs := by
          intro x hx
          refine hmono x ?_
          rcases List.mem_cons.mp hx with rfl | h
          · exact List.mem_cons_self _ _
          · exact List.mem_cons_of_mem _ (List.mem_append_left _ h)
        have hjoin := join_sel_perm ps w0 B' hh.1 hmono0
        refine (List.Perm.append_right _ hjoin).trans ?_
        rw [← hlink]
        apply sel_append_perm
        intro p hp
        exact ⟨hcov w0 rfl p hp, hlt p hp⟩
    · intro l hl
      rw [List.getLast?_concat] at hl
      obtain rfl := Option.some.inj hl
      rfl

/-- Witness for C1: a two-window, two-phrase run in which the second phrase
starts after the last window's original end and is recovered by the
last-window extension. -/
theorem C1_aligner_phrase_partition_witness :
    (alignedPhrases [⟨0, 0, 1000, [⟨"a", 0⟩], "a"⟩, ⟨1, 1000, 2500, [⟨"b", 1500⟩], "b"⟩]).Perm
        [⟨"a", 0⟩, ⟨"b", 1500⟩] ∧
      ∀ l, ([⟨0, 0, 1000, [⟨"a", 0⟩], "a"⟩,
          (⟨1, 1000, 2500, [⟨"b", 1500⟩], "b"⟩ : FrameE)].getLast? = some l) →
        get_end_time [⟨"a", 0⟩, ⟨"b", 1500⟩] = some l.endsAtMs :=
  C1_aligner_phrase_partition [⟨"a", 0⟩, ⟨"b", 1500⟩] [⟨0, 0, 1000⟩, ⟨1, 1000, 1200⟩]
    [⟨0, 0, 1000, [⟨"a", 0⟩], "a"⟩, ⟨1, 1000, 2500, [⟨"b", 1500⟩], "b"⟩]
    (by simp [List.chain'_cons]) (by decide) (by decide) (by decide)

/-- Counterexample for C1 as stated: a one-phrase transcript where the
phrase starts before the (single, hence trivially ordered, contiguous and
non-overlapping) window.  The phrase is selected by no window — the last
window's extended end, `max(start times) + 1000 = 1000`, equals the window's
own start, so the re-selected interval `[1000, 1000)` is empty — and the
output's assigned phrases are not a permutation of the transcript. -/
theorem C1_counterexample_leading_phrase_dropped :
    alignerRun [⟨"a", 0⟩] [⟨0, 1000, 2000⟩] = some [⟨0, 1000, 1000, [], ""⟩] ∧
      ¬ (alignedPhrases [⟨0, 1000, 1000, [], ""⟩]).Perm [⟨"a", 0⟩] := by
  constructor
  · decide
  · intro h
    simpa [alignedPhrases] using h.length_eq

/-- C4 (amended): for a video with exactly one decodable frame the extractor
persists **at most** one frame, independently of the `differ` oracle (and so
of the threshold): exactly one when the computed stride is 1 (the single
frame is sampled and kept unconditionally by the bootstrap), none when the
stride exceeds 1 (the frame's ordinal 1 is not a multiple of the stride, so
it is never considered), and a `ZeroDivisionError` when the stride is 0. -/
theorem C4_single_frame_extraction (fps sampleIntervalSecs : ℚ) {F : Type}
    (differ : F → F → Bool) (it : VFrame F)
    (h : 0 ≤ fps * sampleIntervalSecs) :
    extractorRun fps sampleIntervalSecs differ [it] =
      if extractorFrameInterval fps sampleIntervalSecs = 0 then none
      else if extractorFrameInterval fps sampleIntervalSecs = 1 then
        some [⟨0, 0, it.timeMs⟩]
      else some [] := by
  have hnn : 0 ≤ extractorFrameInterval fps sampleIntervalSecs := by
    unfold extractorFrameInterval pyInt
    rw [if_pos h]
    exact Int.floor_nonneg.mpr h
  unfold extractorRun
  by_cases h0 : extractorFrameInterval fps sampleIntervalSecs = 0
  · simp [h0, List.foldlM, extractorStep]
  by_cases h1 : extractorFrameInterval fps sampleIntervalSecs = 1
  · simp [h0, h1, List.foldlM, extractorStep, exInit]
  · have h2 : (1 : ℤ) % extractorFrameInterval fps sampleIntervalSecs = 1 :=
      Int.emod_eq_of_lt (by norm_num) (by omega)
    simp [h0, h1, List.foldlM, extractorStep, exInit, h2]

/-- Witness for C4: a stride-1 configuration where the single frame is
persisted with start time 0 and end time equal to its own timestamp. -/
theorem C4_single_frame_extraction_witness :
    0 ≤ (1 : ℚ) * 1 ∧
      extractorRun 1 1 (fun _ _ => true) ([⟨7, 500⟩] : List (VFrame ℕ)) =
        (if extractorFrameInterval 1 1 = 0 then none
         else if extractorFrameInterval 1 1 = 1 then some [⟨0, 0, 500⟩] else some []) :=
  ⟨by norm_num, C4_single_frame_extraction 1 1 (fun _ _ => true) ⟨7, 500⟩ (by norm_num)⟩

/-- Counterexample for C4 as stated: a 1-frame video processed with stride 2
(e.g. `fps = 2`, `sample_interval_secs = 1`) persists **zero** frames, not
exactly one — ordinal 1 is not a multiple of the stride, so the bootstrap
never fires. -/
theorem C4_counterexample_single_frame_skipped :
    extractorRun 2 1 (fun _ _ => true) ([⟨7, 500⟩] : List (VFrame ℕ)) = some [] ∧
      ([] : List SavedImg).length ≠ 1 := by
  constructor
  · have hs : extractorFrameInterval 2 1 = 2 := by
      unfold extractorFrameInterval pyInt
      norm_num
    unfold extractorRun
    rw [hs]
    simp [List.foldlM, extractorStep, exInit]
  · decide

/-- C5 (amended): the sampling stride is `int(fps × sample_interval_secs)`,
i.e. the product truncated toward zero (`⌊·⌋` for the non-negative values a
video yields), **not** the nearest integer; and, for a non-zero stride, a
decoded frame is considered exactly when its ordinal (`frame_count` after
the increment) is a multiple of the stride: on a non-multiple the step only
increments the counter, on a multiple with no kept frame the frame is kept
unconditionally (bootstrap), and on a multiple with a kept frame it is kept
iff `differ` holds against the last kept frame. -/
theorem C5_sampling_stride_truncation (fps sampleIntervalSecs : ℚ)
    (h : 0 ≤ fps * sampleIntervalSecs) :
    extractorFrameInterval fps sampleIntervalSecs = ⌊fps * sampleIntervalSecs⌋ ∧
    ∀ (F : Type) (differ : F → F → Bool) (st : ExState F) (it : VFrame F),
      extractorFrameInterval fps sampleIntervalSecs ≠ 0 →
      ((¬ (extractorFrameInterval fps sampleIntervalSecs ∣ ((st.frameCount : ℤ) + 1)) →
          extractorStep (extractorFrameInterval fps sampleIntervalSecs) differ st it =
            some { st with frameCount := st.frameCount + 1 }) ∧
       (extractorFrameInterval fps sampleIntervalSecs ∣ ((st.frameCount : ℤ) + 1) →
          st.prev = none →
          extractorStep (extractorFrameInterval fps sampleIntervalSecs) differ st it =
            some ⟨some it.img, it.timeMs, st.frameCount + 1, st.savedCount + 1,
              st.saved ++ [⟨st.savedCount, st.prevTimeMs, it.timeMs⟩]⟩) ∧
       (∀ p, extractorFrameInterval fps sampleIntervalSecs ∣ ((st.frameCount : ℤ) + 1) →
          st.prev = some p →
          extractorStep (extractorFrameInterval fps sampleIntervalSecs) differ st it =
            if differ p it.img then
              some ⟨some it.img, it.timeMs, st.frameCount + 1, st.savedCount + 1,
                st.saved ++ [⟨st.savedCount, st.prevTimeMs, it.timeMs⟩]⟩
            else some { st with frameCount := st.frameCount + 1 })) := by
  refine ⟨by unfold extractorFrameInterval pyInt; rw [if_pos h], ?_⟩
  intro F differ st it h0
  refine ⟨?_, ?_, ?_⟩
  · intro hnd
    unfold extractorStep
    rw [if_neg h0, if_neg]
    intro hc
    apply hnd
    have := Int.dvd_of_emod_eq_zero hc
    exact_mod_cast this
  · intro hd hprev
    unfold extractorStep
    rw [if_neg h0, if_pos, hprev]
    exact Int.emod_eq_zero_of_dvd (by exact_mod_cast hd)
  · intro p hd hprev
    unfold extractorStep
    rw [if_neg h0, if_pos, hprev]
    exact Int.emod_eq_zero_of_dvd (by exact_mod_cast hd)

/-- Witness for C5: with `fps = 5/2` and a 2-second interval the stride is
`⌊5⌋ = 5`, and on the initial state (frame ordinal 1, not a multiple of 5)
the step only increments the frame counter. -/
theorem C5_sampling_stride_truncation_witness :
    extractorFrameInterval (5/2) 2 = ⌊(5/2 : ℚ) * 2⌋ ∧
      extractorStep (extractorFrameInterval (5/2) 2) (fun _ _ => true)
          (exInit ℕ) ⟨7, 500⟩ =
        some { exInit ℕ with frameCount := (exInit ℕ).frameCount + 1 } := by
  obtain ⟨h1, h2⟩ := C5_sampling_stride_truncation (5/2) 2 (by norm_num)
  have h5 : extractorFrameInterval (5/2) 2 = 5 := by
    rw [h1]
    norm_num
  refine ⟨h1, ?_⟩
  exact (h2 ℕ (fun _ _ => true) (exInit ℕ) ⟨7, 500⟩ (by rw [h5]; decide)).1
    (by rw [h5]; decide)

/-- Counterexample for C5 as stated: at `fps = 27/10` and a 1-second
interval, the code's stride `int(2.7) = 2` differs from the claimed
`round(2.7) = 3`. -/
theorem C5_counterexample_int_truncation_not_round :
    extractorFrameInterval (27/10) 1 ≠ round ((27/10 : ℚ) * 1) := by
  have h1 : extractorFrameInterval (27/10) 1 = 2 := by
    unfold extractorFrameInterval pyInt
    norm_num
  have h2 : round ((27/10 : ℚ) * 1) = 3 := by norm_num [round_eq]
  rw [h1, h2]
  decide

/-- Invariant of the SSIM detection loop: recorded scene starts form a
chain at least `msl` frames apart, and the last recorded scene's start is at
least `msl` before the current scene's start frame. -/
def ssimInv (msl : ℤ) (st : SsimState F) : Prop :=
  List.Chain' (fun a b => a.startFrame + msl ≤ b.startFrame) st.scenes ∧
    ∀ l, st.scenes.getLast? = some l → l.startFrame + msl ≤ st.sceneStartFrame

theorem ssimStep_inv {fi msl : ℤ} {threshold : ℚ} {gray : F → F} {score : F → F → ℚ}
    {st st' : SsimState F} {it : VFrame F}
    (hinv : ssimInv msl st) (hstep : ssimStep fi msl threshold gray score st it = some st') :
    ssimInv msl st' := by
  unfold ssimStep at hstep
  by_cases h0 : fi = 0
  · rw [if_pos h0] at hstep
    simp at hstep
  rw [if_neg h0] at hstep
  by_cases hm : (st.frameCount + 1) % fi = 0
  · rw [if_pos hm] at hstep
    cases hp : st.prev with
    | none =>
      simp only [hp] at hstep
      obtain rfl := Option.some.inj hstep
      exact ⟨hinv.1, hinv.2⟩
    | some p =>
      simp only [hp] at hstep
      by_cases hlen : st.frameCount + 1 - st.sceneStartFrame < msl
      · rw [if_pos hlen] at hstep
        obtain rfl := Option.some.inj hstep
        exact ⟨hinv.1, hinv.2⟩
      rw [if_neg hlen] at hstep
      by_cases hsc : score p (gray it.img) < threshold
      · rw [if_pos hsc] at hstep
        obtain rfl := Option.some.inj hstep
        constructor
        · apply List.chain'_append.mpr
          refine ⟨hinv.1, List.chain'_singleton _, ?_⟩
          intro x hx y hy
          have hyy : (⟨st.scenes.length, formatTimeDot st.sceneStartTime,
              formatTimeDot it.timeMs, st.sceneStartFrame, st.frameCount + 1⟩ : SceneInfoE) = y := by
            simpa using hy
          rw [← hyy]
          exact hinv.2 x (Option.mem_def.mp hx)
        · intro l hl
          rw [List.getLast?_concat] at hl
          obtain rfl := Option.some.inj hl
          show st.sceneStartFrame + msl ≤ st.frameCount + 1
          omega
      · rw [if_neg hsc] at hstep
        obtain rfl := Option.some.inj hstep
        exact ⟨hinv.1, hinv.2⟩
  · rw [if_neg hm] at hstep
    obtain rfl := Option.some.inj hstep
    exact ⟨hinv.1, hinv.2⟩

theorem ssimFold_inv {fi msl : ℤ} {threshold : ℚ} {gray : F → F} {score : F → F → ℚ}
    (items : List (VFrame F)) :
    ∀ st st' : SsimState F, ssimInv msl st →
      List.foldlM (ssimStep fi msl threshold gray score) st items = some st' →
      ssimInv msl st' := by
  induction items with
  | nil =>
    intro st st' h hf
    simp [List.foldlM] at hf
    rw [← hf]
    exact h
  | cons it items ih =>
    intro st st' h hf
    rw [List.foldlM_cons] at hf
    cases hstep : ssimStep fi msl threshold gray score st it with
    | none =>
      rw [hstep] at hf
      simp at hf
    | some s1 =>
      rw [hstep] at hf
      simp at hf
      exact ih s1 st' (ssimStep_inv h hstep) hf

/-- C3: both scene detectors enforce the minimum scene length.  For the
structural-similarity detector (whose loop is in this repository) every pair
of consecutive recorded scenes is at least `int(fps * min_scene_length_secs)`
start frames apart, because a boundary is only accepted once that many
frames have elapsed since the scene start.  For the adaptive detector the
constraint `min_scene_len = min_scene_length_secs * frame_rate` is passed to
the external `scenedetect` call; assuming that library's documented
guarantee on its output, the copied result scenes satisfy the same
invariant. -/
theorem C3_min_scene_length_invariant :
    (∀ (F : Type) (fps sampleIntervalSecs : ℚ) (minSceneLengthSecs : ℤ) (threshold : ℚ)
        (gray : F → F) (score : F → F → ℚ) (items : List (VFrame F)) (scs : List SceneInfoE),
        ssimDetectScenes fps sampleIntervalSecs minSceneLengthSecs threshold gray score items =
          some scs →
        List.Chain' (fun a b =>
          a.startFrame + pyInt (fps * (minSceneLengthSecs : ℚ)) ≤ b.startFrame) scs) ∧
    (∀ (adaptiveThreshold : ℚ) (minSceneLengthSecs : ℤ) (minContentValue fps : ℚ)
        (sceneList : List AdScene),
        adaptiveLibraryMinLenGuarantee ((minSceneLengthSecs : ℚ) * fps) sceneList →
        List.Chain' (fun a b =>
          (a.startFrame : ℚ) + (minSceneLengthSecs : ℚ) * fps ≤ (b.startFrame : ℚ))
          (adaptiveRun adaptiveThreshold minSceneLengthSecs minContentValue fps
            sceneList).scenes) := by
  constructor
  · intro F fps si secs threshold gray score items scs hrun
    unfold ssimDetectScenes at hrun
    cases hf : List.foldlM (ssimStep (pyInt (fps * si)) (pyInt (fps * (secs : ℚ)))
        threshold gray score) (ssimInit F) items with
    | none =>
      rw [hf] at hrun
      simp at hrun
    | some st' =>
      rw [hf] at hrun
      simp at hrun
      have hinv : ssimInv (pyInt (fps * (secs : ℚ))) st' := by
        refine ssimFold_inv items _ _ ?_ hf
        constructor
        · exact List.chain'_nil
        · intro l hl
          simp [ssimInit] at hl
      rw [← hrun]
      exact hinv.1
  · intro aT secs mcv fps sl hguar
    unfold adaptiveRun
    show List.Chain' _ (sl.enum.map _)
    rw [List.chain'_map]
    unfold adaptiveLibraryMinLenGuarantee at hguar
    rw [← List.enum_map_snd sl, List.chain'_map] at hguar
    exact hguar

/-- Witness for C3: a concrete SSIM run (three identical-timestamp frames,
always-different score oracle) recording two scenes with start frames 0 and
2 at minimum length 1, and a concrete two-scene library output for the
adaptive detector. -/
theorem C3_min_scene_length_invariant_witness :
    List.Chain' (fun a b => a.startFrame + pyInt ((1 : ℚ) * ((1 : ℤ) : ℚ)) ≤ b.startFrame)
      ([⟨0, "00:00:00.000", "00:00:00.000", 0, 2⟩,
        ⟨1, "00:00:00.000", "00:00:00.000", 2, 3⟩] : List SceneInfoE) ∧
    List.Chain' (fun a b => (a.startFrame : ℚ) + ((1 : ℤ) : ℚ) * 1 ≤ (b.startFrame : ℚ))
      (adaptiveRun 3 1 27 1 [⟨"a", "b", 0, 10⟩, ⟨"b", "c", 10, 20⟩]).scenes := by
  constructor
  · refine C3_min_scene_length_invariant.1 ℕ 1 1 1 (1/2) id
      (fun a b => if a == b then 1 else 0) [⟨0, 0⟩, ⟨1, 0⟩, ⟨2, 0⟩] _ ?_
    have h1 : pyInt ((1 : ℚ) * 1) = 1 := by
      unfold pyInt
      norm_num
    have h2 : pyInt ((1 : ℚ) * ((1 : ℤ) : ℚ)) = 1 := by
      unfold pyInt
      norm_num
    have hf : formatTimeDot 0 = "00:00:00.000" := by
      unfold formatTimeDot pyInt padNum
      norm_num
      decide
    unfold ssimDetectScenes
    rw [h1, h2]
    simp [List.foldlM, ssimStep, ssimInit, hf]
  · refine C3_min_scene_length_invariant.2 3 1 27 1 _ ?_
    unfold adaptiveLibraryMinLenGuarantee
    simp [List.chain'_cons]

/-- C6 (amended): the adaptive detector's result echoes the full
configuration used (`min_scene_length_secs`, `min_scene_length_frames =
secs × frame_rate`, `adaptive_threshold`, `min_content_val`); the SSIM
detector's result echoes its `min_scene_length_secs` and its threshold (in
the `adaptive_threshold` field), but hard-codes `min_scene_length_frames = 0`
and `min_content_val = 0` instead of the values the detection pass used. -/
theorem C6_result_config_echo (adaptiveThreshold : ℚ) (minSceneLengthSecs : ℤ)
    (minContentValue fps : ℚ) (sceneList : List AdScene) :
    ((adaptiveRun adaptiveThreshold minSceneLengthSecs minContentValue fps
        sceneList).minSceneLengthSecs = minSceneLengthSecs ∧
     (adaptiveRun adaptiveThreshold minSceneLengthSecs minContentValue fps
        sceneList).minSceneLengthFrames = (minSceneLengthSecs : ℚ) * fps ∧
     (adaptiveRun adaptiveThreshold minSceneLengthSecs minContentValue fps
        sceneList).adaptiveThreshold = adaptiveThreshold ∧
     (adaptiveRun adaptiveThreshold minSceneLengthSecs minContentValue fps
        sceneList).minContentVal = minContentValue) ∧
    ∀ (F : Type) (threshold sampleIntervalSecs : ℚ) (gray : F → F)
        (score : F → F → ℚ) (items : List (VFrame F)) (r : SceneDetectionResultE),
      ssimRun threshold minSceneLengthSecs sampleIntervalSecs fps gray score items = some r →
      r.minSceneLengthSecs = minSceneLengthSecs ∧ r.adaptiveThreshold = threshold ∧
        r.minSceneLengthFrames = 0 ∧ r.minContentVal = 0 := by
  refine ⟨⟨rfl, rfl, rfl, rfl⟩, ?_⟩
  intro F threshold si gray score items r hrun
  unfold ssimRun at hrun
  cases hd : ssimDetectScenes fps si minSceneLengthSecs threshold gray score items with
  | none =>
    rw [hd] at hrun
    simp at hrun
  | some scenes =>
    rw [hd] at hrun
    simp at hrun
    rw [← hrun]
    exact ⟨rfl, rfl, rfl, rfl⟩

/-- Witness for C6: the SSIM branch instantiated on an empty (zero-frame)
run. -/
theorem C6_result_config_echo_witness :
    (ssimRun (1/2) 2 1 30 id (fun _ _ => 1) ([] : List (VFrame ℕ))).map
        SceneDetectionResultE.minSceneLengthSecs = some 2 := by
  have h := (C6_result_config_echo (1/2) 2 0 30 []).2 ℕ (1/2) 1 id (fun _ _ => 1) []
    ⟨0, 30, 2, 0, 1/2, 0, []⟩ (by simp [ssimRun, ssimDetectScenes, ssimInit, List.foldlM])
  have hrun : ssimRun (1/2) 2 1 30 id (fun _ _ => 1) ([] : List (VFrame ℕ)) =
      some ⟨0, 30, 2, 0, 1/2, 0, []⟩ := by
    simp [ssimRun, ssimDetectScenes, ssimInit, List.foldlM]
  rw [hrun]
  exact congrArg some h.1

/-- Counterexample for C6 as stated: an SSIM run at `fps = 30`,
`min_scene_length_secs = 2` uses `min_scene_length_frames = int(30·2) = 60`
during detection but reports `min_scene_length_frames = 0` in its result. -/
theorem C6_counterexample_ssim_frames_not_echoed :
    (ssimRun (1/2) 2 1 30 id (fun _ _ => 1) ([] : List (VFrame ℕ))).map
        SceneDetectionResultE.minSceneLengthFrames = some 0 ∧
      pyInt ((30 : ℚ) * ((2 : ℤ) : ℚ)) = 60 ∧ (0 : ℚ) ≠ 60 := by
  refine ⟨?_, ?_, by norm_num⟩
  · simp [ssimRun, ssimDetectScenes, ssimInit, List.foldlM]
  · unfold pyInt
    norm_num

/-- The inner scan returns `true` exactly when some detected scene matches:
the `break` only short-circuits the search, it does not change the
outcome. -/
theorem firstMatch_ok {tol : ℚ} {a : AnnScene} {ds : List AnnScene} {b : Bool}
    (h : firstMatch tol a ds = Except.ok b) :
    b = ds.any fun d =>
      match is_scene_match tol a d with
      | Except.ok true => true
      | _ => false := by
  induction ds generalizing b with
  | nil =>
    unfold firstMatch at h
    simp at h
    simp [← h]
  | cons d ds ih =>
    unfold firstMatch at h
    cases hm : is_scene_match tol a d with
    | error e =>
      rw [hm] at h
      simp [Bind.bind, Except.bind] at h
    | ok b' =>
      rw [hm] at h
      simp only [Bind.bind, Except.bind] at h
      cases b' with
      | true =>
        have hb : b = true := by simpa using h
        subst hb
        rw [List.any_cons]
        simp [hm]
      | false =>
        have h' : firstMatch tol a ds = Except.ok b := by simpa using h
        rw [List.any_cons, hm]
        simp only [Bool.false_or]
        exact ih h'

/-- The outer loop counts exactly the annotated scenes for which some
detected scene matches, each at most once. -/
theorem correctCount_ok {tol : ℚ} {ds : List AnnScene} {as : List AnnScene} {n : ℕ}
    (h : correctCount tol ds as = Except.ok n) :
    n = as.countP fun a => ds.any fun d =>
      match is_scene_match tol a d with
      | Except.ok true => true
      | _ => false := by
  induction as generalizing n with
  | nil =>
    unfold correctCount at h
    simp at h
    simp [← h]
  | cons a as ih =>
    unfold correctCount at h
    cases hb : firstMatch tol a ds with
    | error e =>
      rw [hb] at h
      simp [Bind.bind, Except.bind] at h
    | ok b =>
      rw [hb] at h
      simp only [Bind.bind, Except.bind] at h
      cases hr : correctCount tol ds as with
      | error e =>
        rw [hr] at h
        simp at h
      | ok rest =>
        rw [hr] at h
        simp [Pure.pure, Except.pure] at h
        subst h
        rw [List.countP_cons, ih hr, ← firstMatch_ok hb]
        cases b <;> simp [Nat.add_comm]

/-- C2: whenever the evaluator returns, its metrics are exactly
`accuracy = matched/|annotated|·100`, `precision = matched/|detected|`,
`recall = matched/|annotated|` (each 0 on an empty denominator) and
`f1 = 2·precision·recall/(precision+recall)` (0 when the sum is 0), where
`matched` counts, once per annotated scene, the annotated scenes for which
some detected scene has both boundaries within `tolerance_secs` — the
greedy first-match scan is equivalent to that existence check, and one
detected scene may serve several annotated scenes. -/
theorem C2_evaluator_metrics (tol : ℚ) (ann : AnnotationE) (result : DetResultE)
    (r : EvalMetrics) (hrun : evaluatorRun tol ann result = Except.ok r) :
    r.accuracy = (if ann.scenes.length > 0 then
        ((ann.scenes.countP fun a => result.scenes.any fun d =>
          match is_scene_match tol a d with
          | Except.ok true => true
          | _ => false : ℕ) : ℚ) / ann.scenes.length * 100 else 0) ∧
    r.precision = (if result.scenes.length > 0 then
        ((ann.scenes.countP fun a => result.scenes.any fun d =>
          match is_scene_match tol a d with
          | Except.ok true => true
          | _ => false : ℕ) : ℚ) / result.scenes.length else 0) ∧
    r.recallMetric = (if ann.scenes.length > 0 then
        ((ann.scenes.countP fun a => result.scenes.any fun d =>
          match is_scene_match tol a d with
          | Except.ok true => true
          | _ => false : ℕ) : ℚ) / ann.scenes.length else 0) ∧
    r.f1Score = (if r.precision + r.recallMetric > 0 then
        2 * (r.precision * r.recallMetric) / (r.precision + r.recallMetric) else 0) := by
  unfold evaluatorRun at hrun
  by_cases hp : normPath ann.videoFilePath ≠ normPath result.videoFilePath
  · rw [if_pos hp] at hrun
    simp at hrun
  rw [if_neg hp] at hrun
  cases hcc : correctCount tol result.scenes ann.scenes with
  | error e =>
    rw [hcc] at hrun
    simp [Bind.bind, Except.bind] at hrun
  | ok cc =>
    rw [hcc] at hrun
    simp only [Bind.bind, Except.bind, Pure.pure, Except.pure] at hrun
    obtain rfl := Except.ok.inj hrun
    rw [← correctCount_ok hcc]
    refine ⟨rfl, rfl, rfl, rfl⟩

/-- Witness for C2: the metric formulas instantiated on a concrete run with
two annotated scenes both matching one detected scene. -/
theorem C2_evaluator_metrics_witness :
    (⟨100, 2, 1, 4/3⟩ : EvalMetrics).accuracy =
      (if ([⟨"00:00:01.000", "00:00:03.000"⟩, ⟨"00:00:01.100", "00:00:03.100"⟩] :
          List AnnScene).length > 0 then
        ((([⟨"00:00:01.000", "00:00:03.000"⟩, ⟨"00:00:01.100", "00:00:03.100"⟩] :
            List AnnScene).countP fun a =>
          ([⟨"00:00:01.000", "00:00:03.000"⟩] : List AnnScene).any fun d =>
            match is_scene_match 1 a d with
            | Except.ok true => true
            | _ => false : ℕ) : ℚ) /
          ([⟨"00:00:01.000", "00:00:03.000"⟩, ⟨"00:00:01.100", "00:00:03.100"⟩] :
            List AnnScene).length * 100 else 0) := by
  have h := C2_evaluator_metrics 1
    ⟨"v", [⟨"00:00:01.000", "00:00:03.000"⟩, ⟨"00:00:01.100", "00:00:03.100"⟩]⟩
    ⟨"v", [⟨"00:00:01.000", "00:00:03.000"⟩]⟩ ⟨100, 2, 1, 4/3⟩
    (by
      simp [evaluatorRun, correctCount, firstMatch, is_scene_match,
        time_difference_seconds, parse_time, splitOnChar, strpField, digitsVal, normPath,
        Bind.bind, Except.bind, Pure.pure, Except.pure]
      norm_num [abs_of_nonneg])
  exact h.1

/-- C10: the evaluator can report precision strictly above 1: with two
annotated scenes both within tolerance of the single detected scene, the
matched count is 2 against 1 detected scene, giving precision 2. -/
theorem C10_precision_above_one :
    evaluatorRun 1
        ⟨"v", [⟨"00:00:01.000", "00:00:03.000"⟩, ⟨"00:00:01.100", "00:00:03.100"⟩]⟩
        ⟨"v", [⟨"00:00:01.000", "00:00:03.000"⟩]⟩ =
      Except.ok ⟨100, 2, 1, 4/3⟩ ∧ (1 : ℚ) < 2 := by
  constructor
  · simp [evaluatorRun, correctCount, firstMatch, is_scene_match,
      time_difference_seconds, parse_time, splitOnChar, strpField, digitsVal, normPath,
      Bind.bind, Except.bind, Pure.pure, Except.pure]
    norm_num [abs_of_nonneg]
  · norm_num

theorem time_difference_seconds_ok {t1 t2 : String} {v1 v2 : ℚ}
    (h1 : parse_time t1 = some v1) (h2 : parse_time t2 = some v2) :
    time_difference_seconds t1 t2 = Except.ok |v2 - v1| := by
  unfold time_difference_seconds
  rw [h1, h2]
  simp [Bind.bind, Except.bind, Pure.pure, Except.pure]

theorem time_difference_seconds_error {t1 t2 : String} {e : String}
    (h : time_difference_seconds t1 t2 = Except.error e) :
    (parse_time t1 = none ∧ e = invalidTimeMsg t1) ∨
      (parse_time t2 = none ∧ e = invalidTimeMsg t2) := by
  unfold time_difference_seconds at h
  cases h1 : parse_time t1 with
  | none =>
    rw [h1] at h
    simp [Bind.bind, Except.bind] at h
    exact Or.inl ⟨rfl, h.symm⟩
  | some v1 =>
    rw [h1] at h
    simp only [Bind.bind, Except.bind] at h
    cases h2 : parse_time t2 with
    | none =>
      rw [h2] at h
      simp at h
      exact Or.inr ⟨rfl, h.symm⟩
    | some v2 =>
      rw [h2] at h
      simp [Pure.pure, Except.pure] at h

theorem is_scene_match_ok (tol : ℚ) {a d : AnnScene}
    (h1 : (parse_time a.startTime).isSome) (h2 : (parse_time d.startTime).isSome)
    (h3 : (parse_time a.endTime).isSome) (h4 : (parse_time d.endTime).isSome) :
    ∃ b, is_scene_match tol a d = Except.ok b := by
  obtain ⟨v1, hv1⟩ := Option.isSome_iff_exists.mp h1
  obtain ⟨v2, hv2⟩ := Option.isSome_iff_exists.mp h2
  obtain ⟨v3, hv3⟩ := Option.isSome_iff_exists.mp h3
  obtain ⟨v4, hv4⟩ := Option.isSome_iff_exists.mp h4
  refine ⟨decide (|v2 - v1| ≤ tol) && decide (|v4 - v3| ≤ tol), ?_⟩
  unfold is_scene_match
  rw [time_difference_seconds_ok hv1 hv2, time_difference_seconds_ok hv3 hv4]
  simp [Bind.bind, Except.bind, Pure.pure, Except.pure]

theorem is_scene_match_error {tol : ℚ} {a d : AnnScene} {e : String}
    (h : is_scene_match tol a d = Except.error e) :
    ∃ s, parse_time s = none ∧ e = invalidTimeMsg s ∧
      (s = a.startTime ∨ s = a.endTime ∨ s = d.startTime ∨ s = d.endTime) := by
  unfold is_scene_match at h
  cases ht1 : time_difference_seconds a.startTime d.startTime with
  | error e1 =>
    rw [ht1] at h
    simp [Bind.bind, Except.bind] at h
    subst h
    rcases time_difference_seconds_error ht1 with ⟨hp, he⟩ | ⟨hp, he⟩
    · exact ⟨a.startTime, hp, he, Or.inl rfl⟩
    · exact ⟨d.startTime, hp, he, Or.inr (Or.inr (Or.inl rfl))⟩
  | ok v1 =>
    rw [ht1] at h
    simp only [Bind.bind, Except.bind] at h
    cases ht2 : time_difference_seconds a.endTime d.endTime with
    | error e2 =>
      rw [ht2] at h
      simp at h
      subst h
      rcases time_difference_seconds_error ht2 with ⟨hp, he⟩ | ⟨hp, he⟩
      · exact ⟨a.endTime, hp, he, Or.inr (Or.inl rfl)⟩
      · exact ⟨d.endTime, hp, he, Or.inr (Or.inr (Or.inr rfl))⟩
    | ok v2 =>
      rw [ht2] at h
      simp [Pure.pure, Except.pure] at h

theorem firstMatch_ok_of_parse (tol : ℚ) {a : AnnScene} {ds : List AnnScene}
    (ha1 : (parse_time a.startTime).isSome) (ha2 : (parse_time a.endTime).isSome)
    (hds : ∀ d ∈ ds, (parse_time d.startTime).isSome ∧ (parse_time d.endTime).isSome) :
    ∃ b, firstMatch tol a ds = Except.ok b := by
  induction ds with
  | nil => exact ⟨false, rfl⟩
  | cons d ds ih =>
    obtain ⟨hd1, hd2⟩ := hds d (List.mem_cons_self d ds)
    obtain ⟨b, hb⟩ := is_scene_match_ok tol ha1 hd1 ha2 hd2
    obtain ⟨b', hb'⟩ := ih fun x hx => hds x (List.mem_cons_of_mem _ hx)
    unfold firstMatch
    rw [hb]
    cases b with
    | true => exact ⟨true, rfl⟩
    | false =>
      refine ⟨b', ?_⟩
      simp [Bind.bind, Except.bind, hb']

theorem firstMatch_error {tol : ℚ} {a : AnnScene} {ds : List AnnScene} {e : String}
    (h : firstMatch tol a ds = Except.error e) :
    ∃ s, parse_time s = none ∧ e = invalidTimeMsg s ∧
      (s = a.startTime ∨ s = a.endTime ∨ ∃ d ∈ ds, s = d.startTime ∨ s = d.endTime) := by
  induction ds with
  | nil =>
    unfold firstMatch at h
    simp at h
  | cons d ds ih =>
    unfold firstMatch at h
    cases hm : is_scene_match tol a d with
    | error e1 =>
      rw [hm] at h
      simp [Bind.bind, Except.bind] at h
      subst h
      obtain ⟨s, hp, he, hloc⟩ := is_scene_match_error hm
      refine ⟨s, hp, he, ?_⟩
      rcases hloc with h1 | h1 | h1 | h1
      · exact Or.inl h1
      · exact Or.inr (Or.inl h1)
      · exact Or.inr (Or.inr ⟨d, List.mem_cons_self d ds, Or.inl h1⟩)
      · exact Or.inr (Or.inr ⟨d, List.mem_cons_self d ds, Or.inr h1⟩)
    | ok b =>
      rw [hm] at h
      simp only [Bind.bind, Except.bind] at h
      cases b with
      | true => simp at h
      | false =>
        simp at h
        obtain ⟨s, hp, he, hloc⟩ := ih h
        refine ⟨s, hp, he, ?_⟩
        rcases hloc with h1 | h1 | ⟨d', hd', h1⟩
        · exact Or.inl h1
        · exact Or.inr (Or.inl h1)
        · exact Or.inr (Or.inr ⟨d', List.mem_cons_of_mem _ hd', h1⟩)

theorem correctCount_ok_of_parse (tol : ℚ) {ds as : List AnnScene}
    (has : ∀ a ∈ as, (parse_time a.startTime).isSome ∧ (parse_time a.endTime).isSome)
    (hds : ∀ d ∈ ds, (parse_time d.startTime).isSome ∧ (parse_time d.endTime).isSome) :
    ∃ n, correctCount tol ds as = Except.ok n := by
  induction as with
  | nil => exact ⟨0, rfl⟩
  | cons a as ih =>
    obtain ⟨ha1, ha2⟩ := has a (List.mem_cons_self a as)
    obtain ⟨b, hb⟩ := firstMatch_ok_of_parse tol ha1 ha2 hds
    obtain ⟨n, hn⟩ := ih fun x hx => has x (List.mem_cons_of_mem _ hx)
    refine ⟨(if b then 1 else 0) + n, ?_⟩
    unfold correctCount
    rw [hb]
    simp [Bind.bind, Except.bind, hn, Pure.pure, Except.pure]

theorem correctCount_error {tol : ℚ} {ds as : List AnnScene} {e : String}
    (h : correctCount tol ds as = Except.error e) :
    ∃ s, parse_time s = none ∧ e = invalidTimeMsg s ∧
      ((∃ a ∈ as, s = a.startTime ∨ s = a.endTime) ∨
       (∃ d ∈ ds, s = d.startTime ∨ s = d.endTime)) := by
  induction as with
  | nil =>
    unfold correctCount at h
    simp at h
  | cons a as ih =>
    unfold correctCount at h
    cases hb : firstMatch tol a ds with
    | error e1 =>
      rw [hb] at h
      simp [Bind.bind, Except.bind] at h
      subst h
      obtain ⟨s, hp, he, hloc⟩ := firstMatch_error hb
      refine ⟨s, hp, he, ?_⟩
      rcases hloc with h1 | h1 | ⟨d', hd', h1⟩
      · exact Or.inl ⟨a, List.mem_cons_self a as, Or.inl h1⟩
      · exact Or.inl ⟨a, List.mem_cons_self a as, Or.inr h1⟩
      · exact Or.inr ⟨d', hd', h1⟩
    | ok b =>
      rw [hb] at h
      simp only [Bind.bind, Except.bind] at h
      cases hr : correctCount tol ds as with
      | error e2 =>
        rw [hr] at h
        simp at h
        subst h
        obtain ⟨s, hp, he, hloc⟩ := ih hr
        refine ⟨s, hp, he, ?_⟩
        rcases hloc with ⟨a', ha', h1⟩ | h1
        · exact Or.inl ⟨a', List.mem_cons_of_mem _ ha', h1⟩
        · exact Or.inr h1
      | ok n =>
        rw [hr] at h
        simp [Pure.pure, Except.pure] at h

/-- C8 (amended): the evaluator raises a `ValidationError` exactly for a
mismatched (path-normalized) video path or for a compared scene time string
that `datetime.strptime("%H:%M:%S.%f")` rejects.  On mismatched paths the
error is raised before any scene comparison, whatever the scene lists
contain; if the paths match and every scene time string of both inputs
parses, the run succeeds; and any error raised with matching paths names a
concrete unparseable time string of one of the two inputs, in the message
`Invalid time format: <value>. Expected format: HH:MM:SS.mmm`.  (The
accepted grammar is strictly wider than literal `HH:MM:SS.mmm`: one- or
two-digit in-range hour/minute/second fields and one to six fractional
digits also parse — see the counterexample.) -/
theorem C8_evaluator_validation_errors :
    (∀ (tol : ℚ) (ann : AnnotationE) (result : DetResultE),
      normPath ann.videoFilePath ≠ normPath result.videoFilePath →
      evaluatorRun tol ann result = Except.error pathMismatchMsg) ∧
    (∀ (tol : ℚ) (ann : AnnotationE) (result : DetResultE),
      normPath ann.videoFilePath = normPath result.videoFilePath →
      (∀ a ∈ ann.scenes,
        (parse_time a.startTime).isSome ∧ (parse_time a.endTime).isSome) →
      (∀ d ∈ result.scenes,
        (parse_time d.startTime).isSome ∧ (parse_time d.endTime).isSome) →
      ∃ r, evaluatorRun tol ann result = Except.ok r) ∧
    (∀ (tol : ℚ) (ann : AnnotationE) (result : DetResultE) (e : String),
      normPath ann.videoFilePath = normPath result.videoFilePath →
      evaluatorRun tol ann result = Except.error e →
      ∃ s, parse_time s = none ∧ e = invalidTimeMsg s ∧
        ((∃ a ∈ ann.scenes, s = a.startTime ∨ s = a.endTime) ∨
         (∃ d ∈ result.scenes, s = d.startTime ∨ s = d.endTime))) := by
  refine ⟨?_, ?_, ?_⟩
  · intro tol ann result hne
    unfold evaluatorRun
    rw [if_pos hne]
  · intro tol ann result hpath has hds
    obtain ⟨n, hn⟩ := correctCount_ok_of_parse tol has hds
    cases hres : evaluatorRun tol ann result with
    | ok r => exact ⟨r, rfl⟩
    | error e =>
      exfalso
      unfold evaluatorRun at hres
      rw [if_neg (by simp [hpath]), hn] at hres
      simp [Bind.bind, Except.bind, Pure.pure, Except.pure] at hres
  · intro tol ann result e hpath herr
    unfold evaluatorRun at herr
    rw [if_neg (by simp [hpath])] at herr
    cases hcc : correctCount tol result.scenes ann.scenes with
    | error e1 =>
      rw [hcc] at herr
      simp [Bind.bind, Except.bind] at herr
      subst herr
      exact correctCount_error hcc
    | ok n =>
      rw [hcc] at herr
      simp [Bind.bind, Except.bind, Pure.pure, Except.pure] at herr

/-- Modelled from the spec's words: a time string in literal
`HH:MM:SS.mmm` format — exactly two digits, `:`, two digits, `:`, two
digits, `.`, three digits.  Defined only to compare the claim's strict
format reading against what the implementation accepts. -/
def specHHMMSSmmmFormat (s : String) : Bool :=
  match s.data with
  | [a1, a2, c1, b1, b2, c2, d1, d2, p, x1, x2, x3] =>
    a1.isDigit && a2.isDigit && (c1 == ':') && b1.isDigit && b2.isDigit && (c2 == ':') &&
      d1.isDigit && d2.isDigit && (p == '.') && x1.isDigit && x2.isDigit && x3.isDigit
  | _ => false

/-- Witness for C8: the three parts instantiated — a mismatched-path run
(with garbage time strings that are never parsed), a well-formed run that
succeeds, and a malformed-string run whose error names the offending
value. -/
theorem C8_evaluator_validation_errors_witness :
    evaluatorRun 1 ⟨"a", [⟨"x", "y"⟩]⟩ ⟨"b", []⟩ = Except.error pathMismatchMsg ∧
    (∃ r, evaluatorRun 1 ⟨"v", [⟨"00:00:01.000", "00:00:03.000"⟩]⟩
        ⟨"v", [⟨"00:00:01.000", "00:00:03.000"⟩]⟩ = Except.ok r) ∧
    (∃ s, parse_time s = none ∧ invalidTimeMsg "bogus" = invalidTimeMsg s ∧
      ((∃ a ∈ ([⟨"bogus", "00:00:01.000"⟩] : List AnnScene),
          s = a.startTime ∨ s = a.endTime) ∨
       (∃ d ∈ ([⟨"00:00:01.000", "00:00:01.000"⟩] : List AnnScene),
          s = d.startTime ∨ s = d.endTime))) := by
  obtain ⟨h1, h2, h3⟩ := C8_evaluator_validation_errors
  refine ⟨h1 1 ⟨"a", [⟨"x", "y"⟩]⟩ ⟨"b", []⟩ (by decide),
    h2 1 ⟨"v", [⟨"00:00:01.000", "00:00:03.000"⟩]⟩
      ⟨"v", [⟨"00:00:01.000", "00:00:03.000"⟩]⟩ (by decide) (by decide) (by decide),
    h3 1 ⟨"v", [⟨"bogus", "00:00:01.000"⟩]⟩ ⟨"v", [⟨"00:00:01.000", "00:00:01.000"⟩]⟩
      (invalidTimeMsg "bogus") (by decide) ?_⟩
  simp [evaluatorRun, correctCount, firstMatch, is_scene_match, time_difference_seconds,
    parse_time, splitOnChar, strpField, digitsVal, normPath, invalidTimeMsg,
    Bind.bind, Except.bind, Pure.pure, Except.pure]

/-- Counterexample for C8 as stated: the string `"1:2:3.4"` is **not** in
`HH:MM:SS.mmm` format, yet a run comparing it raises no error — strptime's
`%H:%M:%S.%f` accepts one-digit fields and a one-digit fraction — so
"fails iff a compared string is not in HH:MM:SS.mmm format" is false. -/
theorem C8_counterexample_liberal_time_grammar :
    evaluatorRun 1 ⟨"v", [⟨"1:2:3.4", "1:2:3.4"⟩]⟩ ⟨"v", [⟨"1:2:3.4", "1:2:3.4"⟩]⟩ =
      Except.ok ⟨100, 1, 1, 1⟩ ∧ specHHMMSSmmmFormat "1:2:3.4" = false := by
  constructor
  · simp [evaluatorRun, correctCount, firstMatch, is_scene_match, time_difference_seconds,
      parse_time, splitOnChar, strpField, digitsVal, normPath, Bind.bind, Except.bind,
      Pure.pure, Except.pure]
    norm_num
  · decide

end Ytsum




